import Mathlib

/-!
Verification development for the AI Security-Analyst conversation engine of the
SecureWatch SIEM repository.  The definitions below are a shallow embedding of
the TypeScript source (`src/unnamed/part_007` routes file and
`src/server/storage.ts`): strings are Lean `String`/`List Char`, JavaScript
`null`/`undefined` is `Option`, machine integers are `Nat`, and the stateful
route handlers are modelled as explicit state-passing functions over a message
store.  Theorems about the claims follow the definitions.
-/

/-! ## Response Sanitizer (`sanitizeAiResponse`, src/unnamed/part_007 lines 31-56)

The sanitizer truncates the input to `maxLength` characters and then applies
six JavaScript `String.replace(/…/gi, …)` passes.  Each regular expression used
by the source is deterministic (every quantifier in it is forced: the character
class of each starred/plussed atom is disjoint from the first character set of
what follows), so each is embedded as a total left-to-right matcher returning
the unconsumed remainder of the input, and the global-replace scan is embedded
as a fuelled driver that tries the matcher at every position, exactly like the
JavaScript engine's `lastIndex` loop.  `\b` needs one character of left
context, so the driver threads the previous character of the original string.
-/

/-- JavaScript `\w`: ASCII letters, digits and underscore. -/
def isWordChar (c : Char) : Bool :=
  (65 ≤ c.toNat && c.toNat ≤ 90) || (97 ≤ c.toNat && c.toNat ≤ 122) ||
  (48 ≤ c.toNat && c.toNat ≤ 57) || c.toNat = 95

/-- JavaScript `\s`: the WhiteSpace and LineTerminator code points. -/
def isJsSpace (c : Char) : Bool :=
  c.toNat = 32 || c.toNat = 9 || c.toNat = 10 || c.toNat = 11 || c.toNat = 12 ||
  c.toNat = 13 || c.toNat = 160 || c.toNat = 5760 ||
  (8192 ≤ c.toNat && c.toNat ≤ 8202) || c.toNat = 8232 || c.toNat = 8233 ||
  c.toNat = 8239 || c.toNat = 8287 || c.toNat = 12288 || c.toNat = 65279

/-- ASCII lower-casing of a code point, the canonicalisation the `i` flag
applies to the ASCII literals appearing in the source's patterns. -/
def lowerCode (n : Nat) : Nat := if 65 ≤ n && n ≤ 90 then n + 32 else n

/-- Case-insensitive character comparison (ASCII folding). -/
def charEqCI (c d : Char) : Bool := lowerCode c.toNat = lowerCode d.toNat

/-- Match a literal (case-insensitively), returning the rest of the input. -/
def litCI : List Char → List Char → Option (List Char)
  | [], s => some s
  | _ :: _, [] => none
  | p :: ps, c :: cs => if charEqCI c p then litCI ps cs else none

/-- Consume one character satisfying `p`. -/
def chomp (p : Char → Bool) : List Char → Option (List Char)
  | [] => none
  | c :: cs => if p c then some cs else none

/-- `javascript\s*:` (the `\s*` is terminated by the mandatory `:`). -/
def matchJsUri (s : List Char) : Option (List Char) :=
  match litCI ("javascript".toList) s with
  | none => none
  | some r1 => chomp (fun c => c.toNat = 58) (r1.dropWhile isJsSpace)

/-- `data\s*:\s*(text\/html|application\/javascript)`. -/
def matchDataUri (s : List Char) : Option (List Char) :=
  match litCI ("data".toList) s with
  | none => none
  | some r1 =>
    match chomp (fun c => c.toNat = 58) (r1.dropWhile isJsSpace) with
    | none => none
    | some r3 =>
      match litCI ("text/html".toList) (r3.dropWhile isJsSpace) with
      | some r5 => some r5
      | none => litCI ("application/javascript".toList) (r3.dropWhile isJsSpace)

/-- `\b` holds before the match iff there is no preceding word character. -/
def wordBoundaryBefore : Option Char → Bool
  | none => true
  | some c => !isWordChar c

/-- Single or double quote. -/
def isQuoteChar (c : Char) : Bool := c.toNat = 39 || c.toNat = 34

/-- The shared prefix `on\w+\s*=\s*` of the two event-handler patterns
(after the `\b` check); returns the rest after the second `\s*`. -/
def matchHandlerTail (s : List Char) : Option (List Char) :=
  match litCI ("on".toList) s with
  | none => none
  | some r1 =>
    match chomp isWordChar r1 with
    | none => none
    | some r2 =>
      match chomp (fun c => c.toNat = 61)
          ((r2.dropWhile isWordChar).dropWhile isJsSpace) with
      | none => none
      | some r5 => some (r5.dropWhile isJsSpace)

/-- `\bon\w+\s*=\s*(['"])[^'"]*\1`. -/
def matchHandlerQuoted (prev : Option Char) (s : List Char) : Option (List Char) :=
  if wordBoundaryBefore prev then
    match matchHandlerTail s with
    | none => none
    | some r6 =>
      match r6 with
      | [] => none
      | q :: r7 =>
        if isQuoteChar q then
          chomp (fun c => c.toNat = q.toNat) (r7.dropWhile (fun c => !isQuoteChar c))
        else none
  else none

/-- `\bon\w+\s*=\s*[^\s>]*`. -/
def matchHandlerUnquoted (prev : Option Char) (s : List Char) : Option (List Char) :=
  if wordBoundaryBefore prev then
    match matchHandlerTail s with
    | none => none
    | some r6 => some (r6.dropWhile (fun c => !isJsSpace c && c.toNat ≠ 62))
  else none

/-- One round of the loop `(?:(?!CLOSE)<[^<]*)*CLOSE` of the two tag-block
patterns: if the closing literal matches here, succeed; otherwise skip the `<`
together with the following run of non-`<` characters and continue. -/
def closeLoopStep (close : List Char) (next : List Char → Option (List Char))
    (s : List Char) : Option (List Char) :=
  match litCI close s with
  | some r => some r
  | none =>
    match s with
    | c :: rest =>
      if c.toNat = 60 then next (rest.dropWhile (fun d => d.toNat ≠ 60))
      else none
    | [] => none

/-- The full loop; each round consumes at least one character, so fuel equal
to the input length suffices. -/
def closeLoop (close : List Char) : Nat → List Char → Option (List Char)
  | 0, _ => none
  | Nat.succ fuel, s => closeLoopStep close (closeLoop close fuel) s

/-- `<OPEN\b[^<]*(?:(?!CLOSE)<[^<]*)*CLOSE` (shared by the script and iframe
patterns).  The `\b` after the opening literal holds iff the next character is
not a word character (or the input ends). -/
def matchTag (openLit closeLit : List Char) (s : List Char) : Option (List Char) :=
  match litCI openLit s with
  | none => none
  | some r1 =>
    if (match r1 with | c :: _ => !isWordChar c | [] => true) then
      closeLoop closeLit (s.length + 1) (r1.dropWhile (fun d => d.toNat ≠ 60))
    else none

/-- `<script\b[^<]*(?:(?!<\/script>)<[^<]*)*<\/script>`. -/
def matchScript (s : List Char) : Option (List Char) :=
  matchTag ("<script".toList) ("</script>".toList) s

/-- `<iframe\b[^<]*(?:(?!<\/iframe>)<[^<]*)*<\/iframe>`. -/
def matchIframe (s : List Char) : Option (List Char) :=
  matchTag ("<iframe".toList) ("</iframe>".toList) s

/-- The JavaScript global-replace scan: at every index try the pattern; on a
match emit the replacement and resume right after the matched text, otherwise
copy one character.  `prev` is the previous character of the original string
(for `\b`).  Fuel is the remaining input length plus one; every step consumes
at least one input character, so the fuel never runs out when the driver is
started with `applyStep` below. -/
def gReplaceAux (matchAt : Option Char → List Char → Option (List Char))
    (repl : List Char) : Nat → Option Char → List Char → List Char
  | 0, _, s => s
  | Nat.succ fuel, prev, s =>
    match s with
    | [] => []
    | c :: cs =>
      match matchAt prev s with
      | some r =>
        if r.length < s.length then
          repl ++ gReplaceAux matchAt repl fuel (s.take (s.length - r.length)).getLast? r
        else c :: gReplaceAux matchAt repl fuel (some c) cs
      | none => c :: gReplaceAux matchAt repl fuel (some c) cs

/-- One `String.replace(/…/gi, repl)` pass. -/
def applyStep (matchAt : Option Char → List Char → Option (List Char))
    (repl : List Char) (s : List Char) : List Char :=
  gReplaceAux matchAt repl (s.length + 1) none s

/-- Lift a matcher that does not look at `\b` left context. -/
def ignorePrev (m : List Char → Option (List Char)) :
    Option Char → List Char → Option (List Char) :=
  fun _ s => m s

/-- The six replacement passes of `sanitizeAiResponse`, in source order. -/
def sanitizeChars (s : List Char) : List Char :=
  let s1 := applyStep (ignorePrev matchScript) ("[removed script]".toList) s
  let s2 := applyStep (ignorePrev matchIframe) ("[removed iframe]".toList) s1
  let s3 := applyStep (ignorePrev matchJsUri) ("javascript-blocked:".toList) s2
  let s4 := applyStep (ignorePrev matchDataUri) ("data-blocked:".toList) s3
  let s5 := applyStep matchHandlerQuoted [] s4
  applyStep matchHandlerUnquoted [] s5

/-- The fixed fallback apology returned on falsy input. -/
def fallbackMessage : String :=
  "I apologize, but I was unable to generate a response. Please try again."

/-- `sanitizeAiResponse(response, maxLength)`.  `none` models
`null`/`undefined`; the source's `if (!response)` also treats the empty string
as absent.  The source default for `maxLength` is 8000. -/
def sanitizeAiResponse (response : Option String) (maxLength : Nat) : String :=
  match response with
  | none => fallbackMessage
  | some r =>
    if r = "" then fallbackMessage
    else String.mk (sanitizeChars (r.toList.take maxLength))

/-- Does the pattern match anywhere in the input (with `prev` left context)? -/
def scanHasMatch (matchAt : Option Char → List Char → Option (List Char)) :
    Option Char → List Char → Bool
  | prev, [] => (matchAt prev []).isSome
  | prev, c :: cs => (matchAt prev (c :: cs)).isSome || scanHasMatch matchAt (some c) cs

/-- A character list is free of the five blocked pattern classes (six regexes)
iff none of the sanitizer's patterns matches anywhere in it. -/
def freeOfBlockedPatternsL (l : List Char) : Bool :=
  !scanHasMatch (ignorePrev matchScript) none l &&
  !scanHasMatch (ignorePrev matchIframe) none l &&
  !scanHasMatch (ignorePrev matchJsUri) none l &&
  !scanHasMatch (ignorePrev matchDataUri) none l &&
  !scanHasMatch matchHandlerQuoted none l &&
  !scanHasMatch matchHandlerUnquoted none l

/-- String version of `freeOfBlockedPatternsL`. -/
def freeOfBlockedPatterns (s : String) : Bool :=
  freeOfBlockedPatternsL s.toList

/-! ## Event corpus and Context Selector (src/unnamed/part_007 lines 562-580, 713-721)

`SecurityEvent` keeps the schema fields the embedded operations read (id,
timestamp, eventType, severity, source, category); the remaining columns are
only serialised into the prompt text and are carried opaquely by the
serialisation model below.  Nullability follows the schema
(`category` is nullable, the others are `notNull`). -/

structure SecurityEvent where
  id : String
  timestamp : Nat
  eventType : String
  severity : String
  source : String
  category : Option String
  deriving Repr, DecidableEq

/-- The optional `filters` object of an analyze request.  `none` fields model
absent JSON members. -/
structure AnalyzeFilters where
  severity : Option String
  eventType : Option String
  source : Option String
  category : Option String
  deriving Repr, DecidableEq

/-- JavaScript truthiness of an optional string: `undefined`, `null` and the
empty string are falsy. -/
def truthyStr : Option String → Bool
  | none => false
  | some s => s ≠ ""

/-- One conjunct of the filter predicate: `filters.f && e.f !== filters.f`
rejects the event. -/
def fieldBlocks (fv : Option String) (ev : String) : Bool :=
  match fv with
  | none => false
  | some s => s ≠ "" && ev ≠ s

/-- Same for the nullable `category` column (`null !== s` is true). -/
def fieldBlocksOpt (fv : Option String) (ev : Option String) : Bool :=
  match fv with
  | none => false
  | some s => s ≠ "" && ev ≠ some s

/-- The filter callback of the `/api/ai/analyze` filters branch. -/
def eventMatchesFilters (f : AnalyzeFilters) (e : SecurityEvent) : Bool :=
  !fieldBlocks f.severity e.severity &&
  !fieldBlocks f.eventType e.eventType &&
  !fieldBlocks f.source e.source &&
  !fieldBlocksOpt f.category e.category

/-- `eventIds && eventIds.length > 0`. -/
def idsNonempty : Option (List String) → Bool
  | some (_ :: _) => true
  | _ => false

/-- Context selection of `/api/ai/analyze`: explicit ids beat filters beat the
default 15 most recent events.  `allEvents` is the corpus as returned by
`storage.getSecurityEvents()`, i.e. already sorted descending by timestamp. -/
def selectContextAnalyze (allEvents : List SecurityEvent)
    (eventIds : Option (List String)) (filters : Option AnalyzeFilters) :
    List SecurityEvent :=
  if idsNonempty eventIds then
    allEvents.filter (fun e => (eventIds.getD []).contains e.id)
  else
    match filters with
    | some f => (allEvents.filter (eventMatchesFilters f)).take 20
    | none => allEvents.take 15

/-- Context selection of `/api/ai/quick-analyze`: explicit ids, else the 10
most recent events. -/
def selectContextQuick (allEvents : List SecurityEvent)
    (eventIds : Option (List String)) : List SecurityEvent :=
  if idsNonempty eventIds then
    allEvents.filter (fun e => (eventIds.getD []).contains e.id)
  else allEvents.take 10

/-! ## Session store and Prompt Assembler (src/unnamed/part_007 lines 602-657) -/

/-- A stored `ai_chat_messages` row (fields the embedded code reads). -/
structure AiChatMessage where
  sessionId : String
  userId : Option String
  role : String
  content : String
  timestamp : Nat
  deriving Repr, DecidableEq

/-- One entry of the `messages` array passed to
`client.chat.completions.create`. -/
structure PromptMessage where
  role : String
  content : String
  deriving Repr, DecidableEq

/-- JavaScript `arr.slice(-10)`: the last (at most) ten elements. -/
def sliceLastTen (l : List AiChatMessage) : List AiChatMessage :=
  l.drop (l.length - 10)

/-- `m => ({role: m.role, content: m.content})`.  The source's
`m.role as "user" | "assistant"` is a compile-time cast with no runtime
effect, so the stored role is passed through verbatim. -/
def toPromptMessage (m : AiChatMessage) : PromptMessage :=
  { role := m.role, content := m.content }

/-- `previousMessages.slice(-10).map(m => ({role: m.role, content: m.content}))`. -/
def conversationHistory (previousMessages : List AiChatMessage) : List PromptMessage :=
  (sliceLastTen previousMessages).map toPromptMessage

/-- Textual projection of one context event for the system prompt.  The
source serialises the event with `JSON.stringify`; the JSON rendering is
abstracted to a field-faithful concatenation (no embedded claim inspects it). -/
def renderEvent (e : SecurityEvent) : String :=
  e.id ++ " " ++ toString e.timestamp ++ " " ++ e.eventType ++ " " ++ e.severity ++
  " " ++ e.source ++ " " ++ (e.category.getD "") ++ "\n"

/-- The system prompt of `/api/ai/analyze`: fixed analyst prose, the context
event count, and the serialised context events. -/
def analyzeSystemPrompt (contextEvents : List SecurityEvent) : String :=
  "You are an expert SIEM security analyst AI assistant. You help security operations center (SOC) analysts understand and investigate security events, alerts, and incidents.\n" ++
  "Current security event context (" ++ toString contextEvents.length ++ " events):\n" ++
  String.join (contextEvents.map renderEvent)

/-- The full `messages` array sent to the model backend by `/api/ai/analyze`:
system prompt, replayed history, then the new user turn. -/
def buildAnalyzePrompt (contextEvents : List SecurityEvent)
    (previousMessages : List AiChatMessage) (message : String) : List PromptMessage :=
  { role := "system", content := analyzeSystemPrompt contextEvents } ::
    (conversationHistory previousMessages ++ [{ role := "user", content := message }])

/-! ## Conversation Orchestrator (`/api/ai/analyze`, src/unnamed/part_007 lines 543-692)

The handler is modelled as a pure state-passing function.  The message store
is the list of `ai_chat_messages` rows in insertion order; the database
assigns monotonically increasing insert timestamps, so the per-session
ascending-by-timestamp read order used by `getAiChatMessages` coincides with
insertion order, which is how `sessionMessages` reads it.  The model backend
call is a parameter: it either throws or returns the (possibly missing)
completion content and token usage. -/

/-- Outcome of `client.chat.completions.create`. -/
inductive BackendResult where
  | threw
  | ok (content : Option String) (totalTokens : Option Nat)
  deriving Repr, DecidableEq

/-- The request body of `/api/ai/analyze`. -/
structure AnalyzeRequest where
  sessionId : Option String
  message : Option String
  eventIds : Option (List String)
  filters : Option AnalyzeFilters
  deriving Repr

/-- The HTTP response produced by the handler. -/
inductive AnalyzeResponse where
  | serviceUnavailable (error message : String)
  | badRequest (error : String)
  | success (savedMessage : AiChatMessage) (eventsAnalyzed : Nat) (tokensUsed : Nat)
  | serverError (error : String)
  deriving Repr, DecidableEq

/-- Everything observable about one handler run: the response, the final
message store, the session-title update (if any) and how many times the model
backend was invoked. -/
structure AnalyzeResult where
  response : AnalyzeResponse
  store : List AiChatMessage
  titleUpdate : Option String
  promptSent : Option (List PromptMessage)
  backendCalls : Nat
  deriving Repr

/-- The rows of one session, in store order (ascending insert timestamp). -/
def sessionMessages (store : List AiChatMessage) (sid : String) : List AiChatMessage :=
  store.filter (fun m => m.sessionId == sid)

/-- JavaScript `str.split(" ")`: split on single space characters; empty
tokens from consecutive, leading or trailing spaces are kept, and the empty
string splits to `[""]`. -/
def jsSplitOnSpace : List Char → List (List Char)
  | [] => [[]]
  | c :: cs =>
    if c.toNat = 32 then [] :: jsSplitOnSpace cs
    else
      match jsSplitOnSpace cs with
      | t :: ts => (c :: t) :: ts
      | [] => [[c]]

/-- JavaScript `arr.join(" ")`. -/
def joinWithSpace : List (List Char) → List Char
  | [] => []
  | [t] => t
  | t :: ts => t ++ ' ' :: joinWithSpace ts

/-- Title derivation of the `previousMessages.length === 0` branch:
`message.split(" ").slice(0, 5).join(" ")`, then a 30-character cap
(`substring(0, 30)`) with an ellipsis marker when the joined prefix is longer
than 30 characters. -/
def deriveTitle (message : String) : String :=
  let titleWords := joinWithSpace ((jsSplitOnSpace message.toList).take 5)
  if titleWords.length > 30 then String.mk (titleWords.take 30 ++ "...".toList)
  else String.mk titleWords

/-- The `/api/ai/analyze` handler.  `configured` is `isAiConfigured()`
(both environment variables present); `tUser`/`tAssistant` are the insert
timestamps the database assigns to the two writes. -/
def runAnalyze (configured : Bool) (allEvents : List SecurityEvent)
    (req : AnalyzeRequest) (userId : Option String) (backend : BackendResult)
    (tUser tAssistant : Nat) (store0 : List AiChatMessage) : AnalyzeResult :=
  if !configured then
    { response := AnalyzeResponse.serviceUnavailable "AI service unavailable"
        "The AI integration is not configured. Please ensure OpenAI API credentials are set up in Replit's AI Integrations."
      store := store0, titleUpdate := none, promptSent := none, backendCalls := 0 }
  else if !truthyStr req.message || !truthyStr req.sessionId then
    { response := AnalyzeResponse.badRequest "Message and sessionId are required"
      store := store0, titleUpdate := none, promptSent := none, backendCalls := 0 }
  else
    let sid := req.sessionId.getD ""
    let message := req.message.getD ""
    let contextEvents := selectContextAnalyze allEvents req.eventIds req.filters
    -- user turn persisted before the model call
    -- the source writes `userId: userId || null`
    let storedUser := if truthyStr userId then userId else none
    let store1 := store0 ++
      [{ sessionId := sid, userId := storedUser, role := "user", content := message,
         timestamp := tUser }]
    -- history fetched fresh from the store, after the user turn was written
    let previousMessages := sessionMessages store1 sid
    let prompt := buildAnalyzePrompt contextEvents previousMessages message
    match backend with
    | BackendResult.threw =>
      { response := AnalyzeResponse.serverError "Failed to analyze security events"
        store := store1, titleUpdate := none, promptSent := some prompt, backendCalls := 1 }
    | BackendResult.ok content totalTokens =>
      let assistantResponse := sanitizeAiResponse content 8000
      let saved : AiChatMessage :=
        { sessionId := sid, userId := storedUser, role := "assistant",
          content := assistantResponse, timestamp := tAssistant }
      let store2 := store1 ++ [saved]
      let titleUpdate :=
        if previousMessages.length = 0 then some (deriveTitle message) else none
      { response := AnalyzeResponse.success saved contextEvents.length (totalTokens.getD 0)
        store := store2, titleUpdate := titleUpdate, promptSent := some prompt
        backendCalls := 1 }

/-! ## Message-store read (`MemStorage.getAiChatMessages`,
src/server/storage.ts lines 936-947)

The method wraps a database query (filter by session, order by timestamp
ascending) in `try { … } catch { return []; }`.  The query outcome is modelled
by a failure flag plus the table contents. -/

/-- Timestamp order on stored messages. -/
def msgLe (a b : AiChatMessage) : Prop := a.timestamp ≤ b.timestamp

instance : DecidableRel msgLe := fun a b => Nat.decLe a.timestamp b.timestamp

instance : IsTotal AiChatMessage msgLe := ⟨fun a b => Nat.le_total a.timestamp b.timestamp⟩

instance : IsTrans AiChatMessage msgLe := ⟨fun _ _ _ h h2 => Nat.le_trans h h2⟩

/-- The successful query: the session's rows ordered ascending by timestamp. -/
def queryMessages (table : List AiChatMessage) (sessionId : String) : List AiChatMessage :=
  List.insertionSort msgLe (table.filter (fun m => m.sessionId == sessionId))

/-- `getAiChatMessages`: on a failed read the `catch` returns the empty list;
otherwise the ordered session rows. -/
def getAiChatMessages (dbFails : Bool) (table : List AiChatMessage)
    (sessionId : String) : List AiChatMessage :=
  if dbFails then [] else queryMessages table sessionId

/-! ## Spec-side definitions (for refinement comparison)

These two definitions are modelled from the claims' words, not from the
source, and exist only to be compared against the source-derived
`eventMatchesFilters` above. -/

/-- One field of the claim's filter semantics: an absent field matches every
event, a provided field must be equal. -/
def specFieldMatch (fv : Option String) (ev : String) : Bool :=
  match fv with
  | none => true
  | some s => ev == s

/-- Same for the nullable `category` column. -/
def specFieldMatchOpt (fv : Option String) (ev : Option String) : Bool :=
  match fv with
  | none => true
  | some s => ev == some s

/-- Modelled from the claim's words: an event matches the filter iff every
provided field equals the event's field by equality; absent fields match
every event (logical AND with wildcards). -/
def specFilterMatches (f : AnalyzeFilters) (e : SecurityEvent) : Bool :=
  specFieldMatch f.severity e.severity &&
  specFieldMatch f.eventType e.eventType &&
  specFieldMatch f.source e.source &&
  specFieldMatchOpt f.category e.category

/-- Every provided filter field carries a non-empty value (a field provided as
the empty string is falsy in the source and acts as a wildcard there). -/
def providedFieldsNonempty (f : AnalyzeFilters) : Prop :=
  f.severity ≠ some "" ∧ f.eventType ≠ some "" ∧ f.source ≠ some "" ∧
    f.category ≠ some ""

instance (f : AnalyzeFilters) : Decidable (providedFieldsNonempty f) := by
  unfold providedFieldsNonempty; infer_instance

/-! ## Matcher extension lemmas

Each pattern matcher only ever extends its match when the input is extended on
the right: a successful match survives appending more text.  These lemmas let
pattern-freedom transfer from a string to each of its prefixes, which drives
the truncation and idempotence results about the sanitizer. -/

theorem litCI_append_some {p l r : List Char} (t : List Char)
    (h : litCI p l = some r) : litCI p (l ++ t) = some (r ++ t) := by
  induction p generalizing l with
  | nil =>
    simp only [litCI, Option.some.injEq] at h
    subst h; rfl
  | cons a as ih =>
    cases l with
    | nil => simp [litCI] at h
    | cons c cs =>
      by_cases hc : charEqCI c a
      · simp only [litCI, if_pos hc] at h
        simpa only [List.cons_append, litCI, if_pos hc] using ih h
      · simp only [litCI, if_neg hc] at h
        exact absurd h (by simp)

theorem litCI_length {p l r : List Char} (h : litCI p l = some r) :
    l.length = p.length + r.length := by
  induction p generalizing l with
  | nil =>
    simp only [litCI, Option.some.injEq] at h
    subst h; simp
  | cons a as ih =>
    cases l with
    | nil => simp [litCI] at h
    | cons c cs =>
      by_cases hc : charEqCI c a
      · simp only [litCI, if_pos hc] at h
        have := ih h
        simp only [List.length_cons, this]
        omega
      · simp only [litCI, if_neg hc] at h
        exact absurd h (by simp)

theorem litCI_append_none {p l : List Char} (t : List Char)
    (h : litCI p l = none) (hl : p.length ≤ l.length) : litCI p (l ++ t) = none := by
  induction p generalizing l with
  | nil => simp [litCI] at h
  | cons a as ih =>
    cases l with
    | nil => simp at hl
    | cons c cs =>
      by_cases hc : charEqCI c a
      · simp only [litCI, if_pos hc] at h
        simpa only [List.cons_append, litCI, if_pos hc] using
          ih h (by simpa using hl)
      · simp only [List.cons_append, litCI, if_neg hc]

theorem dropWhile_append_ne_nil {p : Char → Bool} {l : List Char} (t : List Char)
    (h : l.dropWhile p ≠ []) :
    (l ++ t).dropWhile p = l.dropWhile p ++ t := by
  rw [List.dropWhile_append, if_neg (by simpa [List.isEmpty_iff] using h)]

theorem dropWhile_append_nil {p : Char → Bool} {l : List Char} (t : List Char)
    (h : l.dropWhile p = []) : (l ++ t).dropWhile p = t.dropWhile p := by
  rw [List.dropWhile_append, if_pos (by simp [List.isEmpty_iff, h])]

theorem chomp_append {p : Char → Bool} {l r : List Char} (t : List Char)
    (h : chomp p l = some r) : chomp p (l ++ t) = some (r ++ t) := by
  cases l with
  | nil => simp [chomp] at h
  | cons c cs =>
    by_cases hc : p c
    · simp only [chomp, if_pos hc, Option.some.injEq] at h
      subst h
      simp [chomp, if_pos hc]
    · simp only [chomp, if_neg hc] at h
      exact absurd h (by simp)

theorem chomp_ne_nil {p : Char → Bool} {l r : List Char} (h : chomp p l = some r) :
    l ≠ [] := by
  intro hn; rw [hn] at h; simp [chomp] at h

theorem chomp_dropWhile_append {p q : Char → Bool} {l r : List Char} (t : List Char)
    (h : chomp q (l.dropWhile p) = some r) :
    chomp q ((l ++ t).dropWhile p) = some (r ++ t) := by
  rw [dropWhile_append_ne_nil t (chomp_ne_nil h)]
  exact chomp_append t h

theorem matchJsUri_append {l r : List Char} (t : List Char)
    (h : matchJsUri l = some r) : matchJsUri (l ++ t) = some (r ++ t) := by
  unfold matchJsUri at h ⊢
  cases h1 : litCI ("javascript".toList) l with
  | none => rw [h1] at h; exact absurd h (by simp)
  | some r1 =>
    rw [h1] at h
    rw [litCI_append_some t h1]
    exact chomp_dropWhile_append t h

theorem matchDataUri_append {l r : List Char} (t : List Char)
    (h : matchDataUri l = some r) : matchDataUri (l ++ t) = some (r ++ t) := by
  unfold matchDataUri at h ⊢
  cases h1 : litCI ("data".toList) l with
  | none => rw [h1] at h; exact absurd h (by simp)
  | some r1 =>
    rw [h1] at h
    rw [litCI_append_some t h1]
    dsimp only at h ⊢
    cases h3 : chomp (fun c => c.toNat = 58) (r1.dropWhile isJsSpace) with
    | none => rw [h3] at h; exact absurd h (by simp)
    | some r3 =>
      rw [h3] at h
      rw [chomp_dropWhile_append t h3]
      dsimp only at h ⊢
      cases h5 : litCI ("text/html".toList) (r3.dropWhile isJsSpace) with
      | some r5 =>
        rw [h5] at h
        have hne : r3.dropWhile isJsSpace ≠ [] := by
          intro hn; rw [hn] at h5; simp [litCI] at h5
        rw [dropWhile_append_ne_nil t hne, litCI_append_some t h5]
        injection h with h; subst h; rfl
      | none =>
        rw [h5] at h
        have hlen := litCI_length h
        have hne : r3.dropWhile isJsSpace ≠ [] := by
          intro hn; rw [hn] at hlen; simp at hlen; omega
        rw [dropWhile_append_ne_nil t hne]
        rw [litCI_append_none t h5 (by simp at hlen ⊢; omega)]
        exact litCI_append_some t h

theorem matchHandlerTail_append {l r : List Char} (t : List Char)
    (h : matchHandlerTail l = some r) :
    matchHandlerTail (l ++ t) =
      some (if r = [] then t.dropWhile isJsSpace else r ++ t) := by
  unfold matchHandlerTail at h ⊢
  cases h1 : litCI ("on".toList) l with
  | none => rw [h1] at h; exact absurd h (by simp)
  | some r1 =>
    rw [h1] at h
    rw [litCI_append_some t h1]
    dsimp only at h ⊢
    cases h2 : chomp isWordChar r1 with
    | none => rw [h2] at h; exact absurd h (by simp)
    | some r2 =>
      rw [h2] at h
      rw [chomp_append t h2]
      dsimp only at h ⊢
      cases h5 : chomp (fun c => c.toNat = 61)
          ((r2.dropWhile isWordChar).dropWhile isJsSpace) with
      | none => rw [h5] at h; exact absurd h (by simp)
      | some r5 =>
        rw [h5] at h
        have hA : r2.dropWhile isWordChar ≠ [] := by
          intro hn
          rw [hn] at h5
          exact chomp_ne_nil h5 (by simp)
        rw [dropWhile_append_ne_nil t hA]
        rw [chomp_dropWhile_append t h5]
        dsimp only at h ⊢
        injection h with h
        subst h
        by_cases hr : r5.dropWhile isJsSpace = []
        · rw [dropWhile_append_nil t hr, if_pos hr]
        · rw [dropWhile_append_ne_nil t hr, if_neg hr]

theorem matchHandlerQuoted_append {prev : Option Char} {l r : List Char}
    (t : List Char) (h : matchHandlerQuoted prev l = some r) :
    matchHandlerQuoted prev (l ++ t) = some (r ++ t) := by
  unfold matchHandlerQuoted at h ⊢
  by_cases hb : wordBoundaryBefore prev
  · rw [if_pos hb] at h ⊢
    cases h6 : matchHandlerTail l with
    | none => rw [h6] at h; exact absurd h (by simp)
    | some r6 =>
      rw [h6] at h
      rw [matchHandlerTail_append t h6]
      cases r6 with
      | nil => exact absurd h (by simp)
      | cons q r7 =>
        rw [if_neg (by simp : ¬(q :: r7 = []))]
        simp only [List.cons_append]
        dsimp only at h ⊢
        by_cases hq : isQuoteChar q
        · rw [if_pos hq] at h ⊢
          exact chomp_dropWhile_append t h
        · rw [if_neg hq] at h
          exact absurd h (by simp)
  · rw [if_neg hb] at h
    exact absurd h (by simp)

theorem matchHandlerUnquoted_append {prev : Option Char} {l r : List Char}
    (t : List Char) (h : matchHandlerUnquoted prev l = some r) :
    ∃ rr, matchHandlerUnquoted prev (l ++ t) = some rr := by
  unfold matchHandlerUnquoted at h ⊢
  by_cases hb : wordBoundaryBefore prev
  · rw [if_pos hb] at h ⊢
    cases h6 : matchHandlerTail l with
    | none => rw [h6] at h; exact absurd h (by simp)
    | some r6 =>
      rw [matchHandlerTail_append t h6]
      dsimp only
      exact ⟨_, rfl⟩
  · rw [if_neg hb] at h
    exact absurd h (by simp)

theorem closeLoop_some_length {close : List Char} :
    ∀ {f : Nat} {s r : List Char}, closeLoop close f s = some r →
      close.length ≤ s.length := by
  intro f
  induction f with
  | zero => intro s r h; exact absurd h (by simp [closeLoop])
  | succ fuel ih =>
    intro s r h
    unfold closeLoop closeLoopStep at h
    cases h1 : litCI close s with
    | some r0 =>
      have := litCI_length h1
      omega
    | none =>
      rw [h1] at h
      cases s with
      | nil => exact absurd h (by simp)
      | cons c rest =>
        dsimp only at h
        by_cases hc : c.toNat = 60
        · rw [if_pos hc] at h
          have h2 := ih h
          have h3 : (rest.dropWhile (fun d => d.toNat ≠ 60)).length ≤ rest.length :=
            (List.dropWhile_sublist _).length_le
          simp only [List.length_cons]
          omega
        · rw [if_neg hc] at h
          exact absurd h (by simp)

theorem closeLoop_append {close : List Char} :
    ∀ {f : Nat} {l r : List Char} (t : List Char) {g : Nat},
      closeLoop close f l = some r → (l ++ t).length < g →
      closeLoop close g (l ++ t) = some (r ++ t) := by
  intro f
  induction f with
  | zero => intro l r t g h _; exact absurd h (by simp [closeLoop])
  | succ fuel ih =>
    intro l r t g h hg
    cases g with
    | zero => omega
    | succ g2 =>
      unfold closeLoop closeLoopStep at h ⊢
      cases h1 : litCI close l with
      | some r0 =>
        rw [h1] at h
        rw [litCI_append_some t h1]
        injection h with h
        subst h
        rfl
      | none =>
        rw [h1] at h
        cases l with
        | nil => exact absurd h (by simp)
        | cons c rest =>
          dsimp only at h
          by_cases hc : c.toNat = 60
          · rw [if_pos hc] at h
            have hlen : close.length ≤ (rest.dropWhile (fun d => d.toNat ≠ 60)).length :=
              closeLoop_some_length h
            have hdw : (rest.dropWhile (fun d => d.toNat ≠ 60)).length ≤ rest.length :=
              (List.dropWhile_sublist _).length_le
            have hle : close.length ≤ (c :: rest).length := by
              simp only [List.length_cons]; omega
            rw [litCI_append_none t h1 hle]
            have hne : rest.dropWhile (fun d => d.toNat ≠ 60) ≠ [] := by
              intro hn
              rw [hn] at hlen
              simp only [List.length_nil, Nat.le_zero, List.length_eq_zero] at hlen
              rw [hlen] at h1
              simp [litCI] at h1
            simp only [List.cons_append]
            rw [if_pos hc]
            rw [dropWhile_append_ne_nil t hne]
            apply ih t h
            simp only [List.length_append, List.length_cons] at hg ⊢
            omega
          · rw [if_neg hc] at h
            exact absurd h (by simp)

theorem matchTag_append {openLit closeLit : List Char} (hcl : closeLit ≠ [])
    {l r : List Char} (t : List Char) (h : matchTag openLit closeLit l = some r) :
    matchTag openLit closeLit (l ++ t) = some (r ++ t) := by
  unfold matchTag at h ⊢
  cases h1 : litCI openLit l with
  | none => rw [h1] at h; exact absurd h (by simp)
  | some r1 =>
    rw [h1] at h
    rw [litCI_append_some t h1]
    dsimp only at h ⊢
    have hclen : 0 < closeLit.length := by
      cases closeLit with
      | nil => exact absurd rfl hcl
      | cons a as => simp
    cases r1 with
    | nil =>
      rw [if_pos rfl] at h
      have := closeLoop_some_length h
      simp only [List.dropWhile_nil, List.length_nil] at this
      omega
    | cons c1 cs1 =>
      by_cases hw : isWordChar c1
      · rw [if_neg (by simp [hw])] at h
        exact absurd h (by simp)
      · rw [if_pos (by simp [hw])] at h
        simp only [List.cons_append]
        rw [if_pos (by simp [hw])]
        have hlen : closeLit.length ≤ ((c1 :: cs1).dropWhile (fun d => d.toNat ≠ 60)).length :=
          closeLoop_some_length h
        have hne : (c1 :: cs1).dropWhile (fun d => d.toNat ≠ 60) ≠ [] := by
          intro hn; rw [hn] at hlen
          simp only [List.length_nil] at hlen
          omega
        rw [show (c1 :: (cs1 ++ t)) = (c1 :: cs1) ++ t from rfl]
        rw [dropWhile_append_ne_nil t hne]
        apply closeLoop_append t h
        have h2 : ((c1 :: cs1).dropWhile (fun d => d.toNat ≠ 60)).length ≤ (c1 :: cs1).length :=
          (List.dropWhile_sublist _).length_le
        have h3 := litCI_length h1
        simp only [List.length_append, List.length_cons] at h2 h3 ⊢
        omega

theorem matchScript_append {l r : List Char} (t : List Char)
    (h : matchScript l = some r) : matchScript (l ++ t) = some (r ++ t) :=
  matchTag_append (by decide) t h

theorem matchIframe_append {l r : List Char} (t : List Char)
    (h : matchIframe l = some r) : matchIframe (l ++ t) = some (r ++ t) :=
  matchTag_append (by decide) t h

/-! ## Freedom transfer: no match anywhere means the replace passes are the
identity, and pattern-freedom is inherited by every prefix. -/

theorem gReplaceAux_of_no_match
    (matchAt : Option Char → List Char → Option (List Char)) (repl : List Char) :
    ∀ (fuel : Nat) (prev : Option Char) (s : List Char),
      scanHasMatch matchAt prev s = false →
      gReplaceAux matchAt repl fuel prev s = s := by
  intro fuel
  induction fuel with
  | zero => intro prev s _; rfl
  | succ fuel ih =>
    intro prev s h
    cases s with
    | nil => rfl
    | cons c cs =>
      unfold scanHasMatch at h
      simp only [Bool.or_eq_false_iff] at h
      have hnone : matchAt prev (c :: cs) = none := by
        cases hm : matchAt prev (c :: cs) with
        | none => rfl
        | some r => rw [hm] at h; simp at h
      simp only [gReplaceAux, hnone]
      rw [ih (some c) cs h.2]

theorem applyStep_of_no_match
    (matchAt : Option Char → List Char → Option (List Char)) (repl : List Char)
    (s : List Char) (h : scanHasMatch matchAt none s = false) :
    applyStep matchAt repl s = s :=
  gReplaceAux_of_no_match matchAt repl (s.length + 1) none s h

theorem scanHasMatch_append
    (matchAt : Option Char → List Char → Option (List Char))
    (ext : ∀ (prev : Option Char) (l t r : List Char), matchAt prev l = some r →
      ∃ rr, matchAt prev (l ++ t) = some rr) :
    ∀ (prev : Option Char) (l t : List Char),
      scanHasMatch matchAt prev l = true → scanHasMatch matchAt prev (l ++ t) = true := by
  intro prev l
  induction l generalizing prev with
  | nil =>
    intro t h
    unfold scanHasMatch at h
    obtain ⟨r, hr⟩ := Option.isSome_iff_exists.mp h
    obtain ⟨rr, hrr⟩ := ext prev [] t r hr
    cases t with
    | nil => simpa [scanHasMatch] using h
    | cons c cs =>
      unfold scanHasMatch
      simp only [List.nil_append] at hrr
      simp [hrr]
  | cons c cs ih =>
    intro t h
    unfold scanHasMatch at h
    rcases Bool.or_eq_true_iff.mp h with h1 | h2
    · obtain ⟨r, hr⟩ := Option.isSome_iff_exists.mp h1
      obtain ⟨rr, hrr⟩ := ext prev (c :: cs) t r hr
      unfold scanHasMatch
      simp only [List.cons_append] at hrr ⊢
      simp [hrr]
    · have := ih (some c) t h2
      unfold scanHasMatch
      simp only [List.cons_append]
      simp [this]

theorem scanHasMatch_take
    (matchAt : Option Char → List Char → Option (List Char))
    (ext : ∀ (prev : Option Char) (l t r : List Char), matchAt prev l = some r →
      ∃ rr, matchAt prev (l ++ t) = some rr)
    (prev : Option Char) (l : List Char) (n : Nat)
    (h : scanHasMatch matchAt prev l = false) :
    scanHasMatch matchAt prev (l.take n) = false := by
  by_contra hc
  have htrue : scanHasMatch matchAt prev (l.take n) = true := by
    cases hv : scanHasMatch matchAt prev (l.take n) with
    | true => rfl
    | false => exact absurd hv hc
  have := scanHasMatch_append matchAt ext prev (l.take n) (l.drop n) htrue
  rw [List.take_append_drop] at this
  rw [this] at h
  exact absurd h (by simp)

/-- Pattern-freedom is inherited by every prefix. -/
theorem freeOfBlockedPatternsL_take (l : List Char) (n : Nat)
    (h : freeOfBlockedPatternsL l = true) :
    freeOfBlockedPatternsL (l.take n) = true := by
  unfold freeOfBlockedPatternsL at h ⊢
  simp only [Bool.and_eq_true, Bool.not_eq_true'] at h ⊢
  obtain ⟨⟨⟨⟨⟨h1, h2⟩, h3⟩, h4⟩, h5⟩, h6⟩ := h
  refine ⟨⟨⟨⟨⟨?_, ?_⟩, ?_⟩, ?_⟩, ?_⟩, ?_⟩
  · exact scanHasMatch_take _ (fun prev a t r hm => ⟨r ++ t, matchScript_append t hm⟩) none l n h1
  · exact scanHasMatch_take _ (fun prev a t r hm => ⟨r ++ t, matchIframe_append t hm⟩) none l n h2
  · exact scanHasMatch_take _ (fun prev a t r hm => ⟨r ++ t, matchJsUri_append t hm⟩) none l n h3
  · exact scanHasMatch_take _ (fun prev a t r hm => ⟨r ++ t, matchDataUri_append t hm⟩) none l n h4
  · exact scanHasMatch_take _ (fun prev a t r hm => ⟨r ++ t, matchHandlerQuoted_append t hm⟩) none l n h5
  · exact scanHasMatch_take _ (fun prev a t r hm => matchHandlerUnquoted_append t hm) none l n h6

/-- On a pattern-free character list all six replace passes are the identity. -/
theorem sanitizeChars_of_free (l : List Char)
    (h : freeOfBlockedPatternsL l = true) : sanitizeChars l = l := by
  unfold freeOfBlockedPatternsL at h
  simp only [Bool.and_eq_true, Bool.not_eq_true'] at h
  obtain ⟨⟨⟨⟨⟨h1, h2⟩, h3⟩, h4⟩, h5⟩, h6⟩ := h
  unfold sanitizeChars
  dsimp only
  rw [applyStep_of_no_match _ _ _ h1, applyStep_of_no_match _ _ _ h2,
    applyStep_of_no_match _ _ _ h3, applyStep_of_no_match _ _ _ h4,
    applyStep_of_no_match _ _ _ h5, applyStep_of_no_match _ _ _ h6]

/-- On a non-empty pattern-free input the sanitizer is exactly truncation. -/
theorem sanitize_eq_take_of_free (s : String) (maxLength : Nat)
    (h : freeOfBlockedPatterns s = true) (hs : s ≠ "") :
    sanitizeAiResponse (some s) maxLength = String.mk (s.toList.take maxLength) := by
  unfold sanitizeAiResponse
  dsimp only
  rw [if_neg hs]
  rw [sanitizeChars_of_free _ (freeOfBlockedPatternsL_take s.toList maxLength h)]

/-! ## Claim theorems: sanitizer (C3, C9) -/

theorem string_mk_length (l : List Char) : (String.mk l).length = l.length := rfl

theorem string_data_ne_nil {s : String} (h : s ≠ "") : s.data ≠ [] :=
  fun hn => h (String.ext hn)

theorem string_ne_empty_of_toList_ne_nil {s : String} (h : s.toList ≠ []) :
    s ≠ "" := fun hs => h (by rw [hs]; rfl)

/-- C9: for every input string that is already free of the five blocked
patterns (as decided by the sanitizer's own matchers), sanitising twice with
the source's default maxLength of 8000 equals sanitising once. -/
theorem sanitizeIdempotentOnCleanInput (x : String)
    (h : freeOfBlockedPatterns x = true) :
    sanitizeAiResponse (some (sanitizeAiResponse (some x) 8000)) 8000 =
      sanitizeAiResponse (some x) 8000 := by
  by_cases hx : x = ""
  · subst hx
    rw [show sanitizeAiResponse (some "") 8000 = fallbackMessage from rfl]
    rw [sanitize_eq_take_of_free fallbackMessage 8000 (by decide) (by decide)]
    rw [List.take_of_length_le (by decide : fallbackMessage.toList.length ≤ 8000)]
    rfl
  · rw [sanitize_eq_take_of_free x 8000 h hx]
    have hxl : x.toList ≠ [] := string_data_ne_nil hx
    have hyne : x.toList.take 8000 ≠ [] := by
      rw [Ne, List.take_eq_nil_iff]
      push_neg
      exact ⟨by omega, hxl⟩
    have hyfree : freeOfBlockedPatterns (String.mk (x.toList.take 8000)) = true :=
      freeOfBlockedPatternsL_take x.toList 8000 h
    rw [sanitize_eq_take_of_free (String.mk (x.toList.take 8000)) 8000 hyfree
      (string_ne_empty_of_toList_ne_nil hyne)]
    rw [show (String.mk (x.toList.take 8000)).toList = x.toList.take 8000 from rfl]
    rw [List.take_of_length_le (List.length_take_le 8000 x.toList)]

/-- C9 witness: a concrete clean input on which the idempotence theorem
applies. -/
theorem sanitizeIdempotentOnCleanInputWitness :
    freeOfBlockedPatterns "All clear in this log line." = true ∧
    sanitizeAiResponse
        (some (sanitizeAiResponse (some "All clear in this log line.") 8000)) 8000 =
      sanitizeAiResponse (some "All clear in this log line.") 8000 :=
  ⟨by decide, sanitizeIdempotentOnCleanInput "All clear in this log line." (by decide)⟩

/-- C3 counterexample: sanitising the non-empty input `"onclick=x"` yields the
empty string (the unquoted event-handler pass removes the whole input), and
sanitising `"javascript:"` with maxLength 11 yields the 19-character string
`"javascript-blocked:"`.  So the returned string is neither always non-empty
nor always within maxLength, contradicting the claim as stated. -/
theorem sanitizeBoundsCounterexample :
    sanitizeAiResponse (some "onclick=x") 8000 = "" ∧
    11 < (sanitizeAiResponse (some "javascript:") 11).length := by decide

/-- C3 amended: on empty or absent input the result is exactly the fixed
fallback apology (which is non-empty but ignores maxLength); for non-empty
input that is free of the five blocked patterns and positive maxLength, the
result is non-empty and never exceeds maxLength.  (Without the freedom
hypothesis both bounds fail, per the counterexample: replacements run after
truncation and may grow or empty the text.) -/
theorem sanitizeFallbackAndCleanBounds (maxLength : Nat) :
    sanitizeAiResponse none maxLength = fallbackMessage ∧
    sanitizeAiResponse (some "") maxLength = fallbackMessage ∧
    fallbackMessage ≠ "" ∧
    (∀ s : String, s ≠ "" → freeOfBlockedPatterns s = true → 0 < maxLength →
      (sanitizeAiResponse (some s) maxLength).length ≤ maxLength ∧
      sanitizeAiResponse (some s) maxLength ≠ "") := by
  refine ⟨rfl, rfl, by decide, ?_⟩
  intro s hs hfree hml
  rw [sanitize_eq_take_of_free s maxLength hfree hs]
  constructor
  · rw [string_mk_length]
    exact List.length_take_le maxLength s.toList
  · apply string_ne_empty_of_toList_ne_nil
    rw [show (String.mk (s.toList.take maxLength)).toList = s.toList.take maxLength from rfl]
    rw [Ne, List.take_eq_nil_iff]
    push_neg
    exact ⟨by omega, string_data_ne_nil hs⟩

/-- C3 amended witness: the clean-input bounds applied at a concrete input. -/
theorem sanitizeFallbackAndCleanBoundsWitness :
    ("Fine." ≠ "" ∧ freeOfBlockedPatterns "Fine." = true ∧ 0 < 8000) ∧
    (sanitizeAiResponse (some "Fine.") 8000).length ≤ 8000 ∧
    sanitizeAiResponse (some "Fine.") 8000 ≠ "" :=
  ⟨⟨by decide, by decide, by decide⟩,
    (sanitizeFallbackAndCleanBounds 8000).2.2.2 "Fine." (by decide) (by decide)
      (by decide)⟩

/-! ## Claim theorems: Context Selector (C5, C6, C7) -/

/-- C5: result-size bounds of the Context Selector — at most 20 events for any
filter-based request (no explicit ids), at most 15 for a default session-mode
request, at most 10 for a default quick-analyze request. -/
theorem contextSelectorBounds (allEvents : List SecurityEvent)
    (eventIds : Option (List String)) (f : AnalyzeFilters)
    (hids : idsNonempty eventIds = false) :
    (selectContextAnalyze allEvents eventIds (some f)).length ≤ 20 ∧
    (selectContextAnalyze allEvents eventIds none).length ≤ 15 ∧
    (selectContextQuick allEvents eventIds).length ≤ 10 := by
  unfold selectContextAnalyze selectContextQuick
  rw [hids]
  simp only [Bool.false_eq_true, if_false]
  exact ⟨List.length_take_le 20 _, List.length_take_le 15 _, List.length_take_le 10 _⟩

/-- C5 witness: the three bounds at a concrete default request. -/
theorem contextSelectorBoundsWitness :
    idsNonempty none = false ∧
    ((selectContextAnalyze [] none
        (some { severity := none, eventType := none, source := none,
                category := none })).length ≤ 20 ∧
      (selectContextAnalyze [] none none).length ≤ 15 ∧
      (selectContextQuick [] none).length ≤ 10) :=
  ⟨rfl, contextSelectorBounds [] none
    { severity := none, eventType := none, source := none, category := none } rfl⟩

theorem fieldBlocks_spec (fv : Option String) (ev : String) (h : fv ≠ some "") :
    (!fieldBlocks fv ev) = specFieldMatch fv ev := by
  cases fv with
  | none => rfl
  | some s =>
    have hs : s ≠ "" := fun he => h (by rw [he])
    simp [fieldBlocks, specFieldMatch, hs, beq_iff_eq]
    by_cases hev : ev = s <;> simp [hev]

theorem fieldBlocksOpt_spec (fv : Option String) (ev : Option String)
    (h : fv ≠ some "") :
    (!fieldBlocksOpt fv ev) = specFieldMatchOpt fv ev := by
  cases fv with
  | none => rfl
  | some s =>
    have hs : s ≠ "" := fun he => h (by rw [he])
    simp [fieldBlocksOpt, specFieldMatchOpt, hs, beq_iff_eq]
    by_cases hev : ev = some s <;> simp [hev]

/-- C6: a session-analysis request with a filter object (whose provided fields
are non-empty strings) and no explicit ids returns exactly the corpus events
matching every provided field — per `specFilterMatches`, which is written from
the claim's words (equality on each provided field, absent fields are
wildcards, logical AND) — truncated to the first 20 after filtering, in the
corpus's own (most-recent-first) order: the result is a sublist of the
corpus.  An event matching only some provided fields fails `specFilterMatches`
and is excluded. -/
theorem filterSelectionExact (allEvents : List SecurityEvent)
    (eventIds : Option (List String)) (f : AnalyzeFilters)
    (hids : idsNonempty eventIds = false) (hf : providedFieldsNonempty f) :
    selectContextAnalyze allEvents eventIds (some f) =
      (allEvents.filter (fun e => specFilterMatches f e)).take 20 ∧
    List.Sublist (selectContextAnalyze allEvents eventIds (some f)) allEvents := by
  obtain ⟨h1, h2, h3, h4⟩ := hf
  have hmatch : ∀ e, eventMatchesFilters f e = specFilterMatches f e := by
    intro e
    unfold eventMatchesFilters specFilterMatches
    rw [fieldBlocks_spec f.severity e.severity h1,
      fieldBlocks_spec f.eventType e.eventType h2,
      fieldBlocks_spec f.source e.source h3,
      fieldBlocksOpt_spec f.category e.category h4]

  have hsel : selectContextAnalyze allEvents eventIds (some f) =
      (allEvents.filter (fun e => specFilterMatches f e)).take 20 := by
    unfold selectContextAnalyze
    rw [hids]
    simp only [Bool.false_eq_true, if_false]
    rw [List.filter_congr (fun e _ => hmatch e)]
  refine ⟨hsel, ?_⟩
  rw [hsel]
  exact (List.take_sublist _ _).trans (List.filter_sublist _)

/-- C6 witness: the filter theorem applied to a concrete corpus where one
event matches both provided fields and another matches only one. -/
theorem filterSelectionExactWitness :
    (idsNonempty none = false ∧
      providedFieldsNonempty
        { severity := some "Critical", eventType := some "Malware Detected",
          source := none, category := none }) ∧
    (selectContextAnalyze
        [{ id := "e1", timestamp := 9, eventType := "Malware Detected",
           severity := "Critical", source := "fw", category := none },
         { id := "e2", timestamp := 8, eventType := "Login Failure",
           severity := "Critical", source := "fw", category := none }] none
        (some { severity := some "Critical", eventType := some "Malware Detected",
                source := none, category := none }) =
      ([{ id := "e1", timestamp := 9, eventType := "Malware Detected",
          severity := "Critical", source := "fw", category := none },
        { id := "e2", timestamp := 8, eventType := "Login Failure",
          severity := "Critical", source := "fw", category := none }].filter
        (fun e => specFilterMatches
          { severity := some "Critical", eventType := some "Malware Detected",
            source := none, category := none } e)).take 20 ∧
      List.Sublist (selectContextAnalyze
        [{ id := "e1", timestamp := 9, eventType := "Malware Detected",
           severity := "Critical", source := "fw", category := none },
         { id := "e2", timestamp := 8, eventType := "Login Failure",
           severity := "Critical", source := "fw", category := none }] none
        (some { severity := some "Critical", eventType := some "Malware Detected",
                source := none, category := none }))
        [{ id := "e1", timestamp := 9, eventType := "Malware Detected",
           severity := "Critical", source := "fw", category := none },
         { id := "e2", timestamp := 8, eventType := "Login Failure",
           severity := "Critical", source := "fw", category := none }]) :=
  ⟨⟨rfl, by decide⟩,
    filterSelectionExact _ none _ rfl (by decide)⟩

/-- C7: with a non-empty explicit id list (session or quick mode) the Context
Selector returns exactly the corpus events whose id is in the list, in corpus
order (a sublist of the corpus — no re-sort), and — since corpus ids are
unique — never more events than the list has entries. -/
theorem explicitIdSelection (allEvents : List SecurityEvent) (ids : List String)
    (filters : Option AnalyzeFilters) (hne : ids ≠ []) :
    selectContextAnalyze allEvents (some ids) filters =
        allEvents.filter (fun e => ids.contains e.id) ∧
    selectContextQuick allEvents (some ids) =
        allEvents.filter (fun e => ids.contains e.id) ∧
    List.Sublist (allEvents.filter (fun e => ids.contains e.id)) allEvents ∧
    (∀ e, e ∈ allEvents.filter (fun e => ids.contains e.id) ↔
        e ∈ allEvents ∧ e.id ∈ ids) ∧
    ((allEvents.map (fun e => e.id)).Nodup →
        (allEvents.filter (fun e => ids.contains e.id)).length ≤ ids.length) := by
  have hidsn : idsNonempty (some ids) = true := by
    cases ids with
    | nil => exact absurd rfl hne
    | cons a as => rfl
  refine ⟨?_, ?_, List.filter_sublist _, ?_, ?_⟩
  · unfold selectContextAnalyze
    rw [hidsn]
    simp only [if_true, Option.getD_some]
  · unfold selectContextQuick
    rw [hidsn]
    simp only [if_true, Option.getD_some]
  · intro e
    simp [List.mem_filter, List.contains_iff_exists_mem_beq, beq_iff_eq]
  · intro hnd
    have hmapsub : List.Sublist
        ((allEvents.filter (fun e => ids.contains e.id)).map (fun e => e.id))
        (allEvents.map (fun e => e.id)) :=
      (List.filter_sublist _).map _
    have hndr : ((allEvents.filter (fun e => ids.contains e.id)).map
        (fun e => e.id)).Nodup := hnd.sublist hmapsub
    have hsub : ((allEvents.filter (fun e => ids.contains e.id)).map
        (fun e => e.id)) ⊆ ids := by
      intro x hx
      simp only [List.mem_map, List.mem_filter] at hx
      obtain ⟨e, ⟨_, hc⟩, hxe⟩ := hx
      subst hxe
      exact List.elem_iff.mp hc
    have hlen := (List.subperm_of_subset hndr hsub).length_le
    simpa using hlen

/-- C7 witness: explicit-id selection at a concrete corpus and id list. -/
theorem explicitIdSelectionWitness :
    (["e2"] ≠ ([] : List String)) ∧
    (selectContextAnalyze
        [{ id := "e1", timestamp := 9, eventType := "A", severity := "High",
           source := "s", category := none },
         { id := "e2", timestamp := 8, eventType := "B", severity := "Low",
           source := "s", category := none }] (some ["e2"]) none =
      [{ id := "e1", timestamp := 9, eventType := "A", severity := "High",
         source := "s", category := none },
       { id := "e2", timestamp := 8, eventType := "B", severity := "Low",
         source := "s", category := none }].filter
        (fun e => (["e2"] : List String).contains e.id)) ∧
    ((([{ id := "e1", timestamp := 9, eventType := "A", severity := "High",
          source := "s", category := none },
        { id := "e2", timestamp := 8, eventType := "B", severity := "Low",
          source := "s", category := none }] :
        List SecurityEvent).map (fun e => e.id)).Nodup →
      (([{ id := "e1", timestamp := 9, eventType := "A", severity := "High",
           source := "s", category := none },
         { id := "e2", timestamp := 8, eventType := "B", severity := "Low",
           source := "s", category := none }] : List SecurityEvent).filter
        (fun e => (["e2"] : List String).contains e.id)).length ≤
        (["e2"] : List String).length) :=
  ⟨by decide,
    (explicitIdSelection _ ["e2"] none (by decide)).1,
    (explicitIdSelection _ ["e2"] none (by decide)).2.2.2.2⟩

/-! ## Claim theorem: message-store read (C10) -/

/-- C10: `getAiChatMessages` is total over both query outcomes — on a failed
database read the catch handler returns the empty list, indistinguishable
from reading an empty session; on a successful read it returns exactly the
session's rows, sorted ascending by timestamp. -/
theorem messagesReadTotal (dbFails : Bool) (table : List AiChatMessage)
    (sid : String) :
    (dbFails = true → getAiChatMessages dbFails table sid = [] ∧
      getAiChatMessages dbFails table sid = getAiChatMessages false [] sid) ∧
    (dbFails = false →
      List.Sorted msgLe (getAiChatMessages dbFails table sid) ∧
      (getAiChatMessages dbFails table sid).Perm
        (table.filter (fun m => m.sessionId == sid))) := by
  constructor
  · intro h
    subst h
    exact ⟨rfl, rfl⟩
  · intro h
    subst h
    unfold getAiChatMessages queryMessages
    simp only [Bool.false_eq_true, if_false]
    exact ⟨List.sorted_insertionSort msgLe _, List.perm_insertionSort msgLe _⟩

/-- C10 witness: a failed read on a non-empty table yields the empty list,
exactly like reading an empty table. -/
theorem messagesReadTotalWitness :
    getAiChatMessages true
        [{ sessionId := "s1", userId := none, role := "user", content := "hi",
           timestamp := 5 }] "s1" = [] ∧
    getAiChatMessages true
        [{ sessionId := "s1", userId := none, role := "user", content := "hi",
           timestamp := 5 }] "s1" = getAiChatMessages false [] "s1" :=
  (messagesReadTotal true
    [{ sessionId := "s1", userId := none, role := "user", content := "hi",
       timestamp := 5 }] "s1").1 rfl

/-! ## Claim theorems: Conversation Orchestrator (C1, C4, C8, C2) -/

/-- C1 counterexample: with the backend unconfigured, the handler answers 503
before touching the store — the final store is still empty, so the user's
message was NOT persisted, contradicting the claim that the persisted user
message is the only side effect. -/
theorem unconfiguredNoPersistenceCounterexample :
    (runAnalyze false []
        { sessionId := some "s1", message := some "hello", eventIds := none,
          filters := none } none (BackendResult.ok none none) 0 1 []).store = [] ∧
    (runAnalyze false []
        { sessionId := some "s1", message := some "hello", eventIds := none,
          filters := none } none (BackendResult.ok none none) 0 1 []).response =
      AnalyzeResponse.serviceUnavailable "AI service unavailable"
        "The AI integration is not configured. Please ensure OpenAI API credentials are set up in Replit's AI Integrations." ∧
    (runAnalyze false []
        { sessionId := some "s1", message := some "hello", eventIds := none,
          filters := none } none (BackendResult.ok none none) 0 1 []).backendCalls =
      0 :=
  ⟨rfl, rfl, rfl⟩

/-- C1 amended: when the model backend is unconfigured the handler returns the
distinguished ServiceUnavailable response with a human-readable explanation,
never invokes the backend, and performs no side effect at all — the
configuration check precedes validation and persistence, so not even the
user's message is stored, and no title update happens. -/
theorem unconfiguredServiceUnavailable (allEvents : List SecurityEvent)
    (req : AnalyzeRequest) (userId : Option String) (backend : BackendResult)
    (tU tA : Nat) (store0 : List AiChatMessage) :
    (runAnalyze false allEvents req userId backend tU tA store0).response =
      AnalyzeResponse.serviceUnavailable "AI service unavailable"
        "The AI integration is not configured. Please ensure OpenAI API credentials are set up in Replit's AI Integrations." ∧
    (runAnalyze false allEvents req userId backend tU tA store0).store = store0 ∧
    (runAnalyze false allEvents req userId backend tU tA store0).backendCalls = 0 ∧
    (runAnalyze false allEvents req userId backend tU tA store0).titleUpdate =
      none :=
  ⟨rfl, rfl, rfl, rfl⟩

/-- C4 counterexample: a configured call whose backend invocation throws jumps
to the catch block — NO assistant turn is persisted (the store gains only the
user turn) and a generic 500 error is returned, contradicting the claim that
an assistant turn containing the fallback text is persisted. -/
theorem backendThrowCounterexample :
    ((runAnalyze true []
        { sessionId := some "s1", message := some "hello", eventIds := none,
          filters := none } none BackendResult.threw 0 1 []).store.filter
      (fun m => m.role == "assistant")) = [] ∧
    (runAnalyze true []
        { sessionId := some "s1", message := some "hello", eventIds := none,
          filters := none } none BackendResult.threw 0 1 []).response =
      AnalyzeResponse.serverError "Failed to analyze security events" := by
  constructor <;> decide

/-- C4 amended: after a configured, validated call — if the backend invocation
throws, the orchestrator persists NO assistant turn (only the user turn is
added) and reports a generic server error; if the invocation returns no
usable content, an assistant turn containing the sanitizer's empty-input
fallback text is persisted and returned to the caller as a normal success,
with no separate failure indication. -/
theorem backendFailureHandling (allEvents : List SecurityEvent)
    (sid msg : String) (eventIds : Option (List String))
    (filters : Option AnalyzeFilters) (userId : Option String)
    (tU tA : Nat) (store0 : List AiChatMessage) (tokens : Option Nat)
    (hsid : sid ≠ "") (hmsg : msg ≠ "") :
    ((runAnalyze true allEvents
        { sessionId := some sid, message := some msg, eventIds := eventIds,
          filters := filters } userId BackendResult.threw tU tA store0).store =
      store0 ++
        [{ sessionId := sid, userId := if truthyStr userId then userId else none,
           role := "user", content := msg, timestamp := tU }] ∧
     (runAnalyze true allEvents
        { sessionId := some sid, message := some msg, eventIds := eventIds,
          filters := filters } userId BackendResult.threw tU tA store0).response =
      AnalyzeResponse.serverError "Failed to analyze security events") ∧
    ((runAnalyze true allEvents
        { sessionId := some sid, message := some msg, eventIds := eventIds,
          filters := filters } userId (BackendResult.ok none tokens) tU tA
        store0).store =
      (store0 ++
        [{ sessionId := sid, userId := if truthyStr userId then userId else none,
           role := "user", content := msg, timestamp := tU }]) ++
        [{ sessionId := sid, userId := if truthyStr userId then userId else none,
           role := "assistant", content := fallbackMessage, timestamp := tA }] ∧
     (runAnalyze true allEvents
        { sessionId := some sid, message := some msg, eventIds := eventIds,
          filters := filters } userId (BackendResult.ok none tokens) tU tA
        store0).response =
      AnalyzeResponse.success
        { sessionId := sid, userId := if truthyStr userId then userId else none,
          role := "assistant", content := fallbackMessage, timestamp := tA }
        (selectContextAnalyze allEvents eventIds filters).length
        (tokens.getD 0)) := by
  have hb : (!truthyStr (some msg) || !truthyStr (some sid)) = false := by
    simp [truthyStr, hmsg, hsid]
  unfold runAnalyze
  dsimp only
  rw [hb]
  simp only [Bool.false_eq_true, if_false]
  exact ⟨⟨rfl, rfl⟩, rfl, rfl⟩

/-- C4 amended witness: the no-usable-content branch at a concrete call. -/
theorem backendFailureHandlingWitness :
    ("s1" ≠ "" ∧ "hello" ≠ "") ∧
    (runAnalyze true []
        { sessionId := some "s1", message := some "hello", eventIds := none,
          filters := none } none (BackendResult.ok none none) 0 1 []).store =
      (([] : List AiChatMessage) ++
        [{ sessionId := "s1", userId := if truthyStr none then none else none,
           role := "user", content := "hello", timestamp := 0 }]) ++
        [{ sessionId := "s1", userId := if truthyStr none then none else none,
           role := "assistant", content := fallbackMessage, timestamp := 1 }] :=
  ⟨⟨by decide, by decide⟩,
    (backendFailureHandling [] "s1" "hello" none none none 0 1 [] none
      (by decide) (by decide)).2.1⟩

/-- C8 (code bug): on the session's genuinely first message — empty store,
configured backend, successful completion — the handler performs NO title
update: the history is read back AFTER the user turn is persisted, so the
`previousMessages.length === 0` check sees length 1 and the title branch is
dead in normal operation.  The second conjunct evaluates `deriveTitle` on the
spec's own example message, showing what the dead branch would have set. -/
theorem titleNeverSetOnFirstMessage :
    (runAnalyze true []
        { sessionId := some "s1",
          message :=
            some "Investigate the critical SQL injection alerts from last night please",
          eventIds := none, filters := none } none
        (BackendResult.ok (some "Looks bad.") (some 7)) 0 1 []).titleUpdate =
      none ∧
    deriveTitle
        "Investigate the critical SQL injection alerts from last night please" =
      "Investigate the critical SQL i..." := by
  constructor <;> decide

/-- C2 counterexample: (i) for the first message of a fresh session the
history is fetched after the user turn was persisted, so the prompt is
`[system, user "hi", user "hi"]` — the new user turn is replayed inside the
history and appended once more at the end, instead of the claimed
prior-turns-then-new-turn shape of length 2; (ii) with a stored system-role
turn in the session, the replay passes it through with role `"system"`
verbatim — stored system turns are not excluded. -/
theorem promptReplayCounterexample :
    (runAnalyze true []
        { sessionId := some "s1", message := some "hi", eventIds := none,
          filters := none } none (BackendResult.ok (some "a") none) 0 1
        []).promptSent =
      some [{ role := "system", content := analyzeSystemPrompt [] },
            { role := "user", content := "hi" },
            { role := "user", content := "hi" }] ∧
    (runAnalyze true []
        { sessionId := some "s1", message := some "hi", eventIds := none,
          filters := none } none (BackendResult.ok (some "a") none) 5 6
        [{ sessionId := "s1", userId := none, role := "system",
           content := "note", timestamp := 0 }]).promptSent =
      some [{ role := "system", content := analyzeSystemPrompt [] },
            { role := "system", content := "note" },
            { role := "user", content := "hi" },
            { role := "user", content := "hi" }] := by
  constructor <;> rfl

/-- C2 amended: for a configured, validated session-analysis call the prompt
sent to the backend is the system turn, then the replay of the last at most
ten stored turns of the session as read AFTER the new user turn was persisted
— i.e. at most 9 strictly prior stored turns, oldest-to-newest, each with its
stored role passed through verbatim (system-role turns included), followed by
the new user turn — and then the new user turn appended once more at the
end.  So prompt growth stays bounded (1 + 10 + 1 turns), but the new turn
appears twice and system turns are not filtered. -/
theorem promptReplayStructure (allEvents : List SecurityEvent)
    (sid msg : String) (eventIds : Option (List String))
    (filters : Option AnalyzeFilters) (userId : Option String)
    (backend : BackendResult) (tU tA : Nat) (store0 : List AiChatMessage)
    (hsid : sid ≠ "") (hmsg : msg ≠ "") :
    ∃ priorHist : List PromptMessage,
      (runAnalyze true allEvents
          { sessionId := some sid, message := some msg, eventIds := eventIds,
            filters := filters } userId backend tU tA store0).promptSent =
        some ({ role := "system",
                content := analyzeSystemPrompt
                  (selectContextAnalyze allEvents eventIds filters) } ::
          ((priorHist ++ [{ role := "user", content := msg }]) ++
            [{ role := "user", content := msg }])) ∧
      priorHist.length ≤ 9 ∧
      priorHist =
        ((sessionMessages store0 sid).drop
          ((sessionMessages store0 sid).length + 1 - 10)).map toPromptMessage := by
  have hb : (!truthyStr (some msg) || !truthyStr (some sid)) = false := by
    simp [truthyStr, hmsg, hsid]
  refine ⟨((sessionMessages store0 sid).drop
      ((sessionMessages store0 sid).length + 1 - 10)).map toPromptMessage,
    ?_, ?_, rfl⟩
  · have hsess : ∀ u : AiChatMessage, u.sessionId = sid →
        sessionMessages (store0 ++ [u]) sid = sessionMessages store0 sid ++ [u] := by
      intro u hu
      unfold sessionMessages
      rw [List.filter_append]
      simp [List.filter, hu]
    have hch : ∀ u : AiChatMessage, u.sessionId = sid → u.role = "user" →
        u.content = msg →
        conversationHistory (sessionMessages (store0 ++ [u]) sid) =
          ((sessionMessages store0 sid).drop
            ((sessionMessages store0 sid).length + 1 - 10)).map toPromptMessage ++
          [{ role := "user", content := msg }] := by
      intro u hu hrole hcontent
      rw [hsess u hu]
      unfold conversationHistory sliceLastTen
      rw [List.length_append]
      simp only [List.length_cons, List.length_nil]
      rw [List.drop_append_of_le_length (by omega)]
      rw [List.map_append]
      simp [toPromptMessage, hrole, hcontent]
    cases backend with
    | threw =>
      unfold runAnalyze
      dsimp only
      rw [hb]
      simp only [Bool.not_true, Bool.false_eq_true, if_false, Option.getD_some]
      unfold buildAnalyzePrompt
      rw [hch { sessionId := sid,
                userId := if truthyStr userId then userId else none,
                role := "user", content := msg, timestamp := tU } rfl rfl rfl]
    | ok content tokens =>
      unfold runAnalyze
      dsimp only
      rw [hb]
      simp only [Bool.not_true, Bool.false_eq_true, if_false, Option.getD_some]
      unfold buildAnalyzePrompt
      rw [hch { sessionId := sid,
                userId := if truthyStr userId then userId else none,
                role := "user", content := msg, timestamp := tU } rfl rfl rfl]
  · rw [List.length_map, List.length_drop]
    omega

/-- C2 amended witness: the prompt structure at a concrete first-message
call. -/
theorem promptReplayStructureWitness :
    ("s1" ≠ "" ∧ "hi" ≠ "") ∧
    ∃ priorHist : List PromptMessage,
      (runAnalyze true []
          { sessionId := some "s1", message := some "hi", eventIds := none,
            filters := none } none (BackendResult.ok (some "a") none) 0 1
          []).promptSent =
        some ({ role := "system",
                content := analyzeSystemPrompt
                  (selectContextAnalyze [] none none) } ::
          ((priorHist ++ [{ role := "user", content := "hi" }]) ++
            [{ role := "user", content := "hi" }])) ∧
      priorHist.length ≤ 9 ∧
      priorHist =
        ((sessionMessages [] "s1").drop
          ((sessionMessages [] "s1").length + 1 - 10)).map toPromptMessage :=
  ⟨⟨by decide, by decide⟩,
    promptReplayStructure [] "s1" "hi" none none none
      (BackendResult.ok (some "a") none) 0 1 [] (by decide) (by decide)⟩
